import Mathlib

/-!
Verification of the Inkbunny downloader pipeline (`src/main.py`).

The program is embedded shallowly: network responses are supplied by
deterministic oracles (one response per endpoint/argument), the local
filesystem is an association list from paths to byte lists, and every
operation returns its result together with the list of observable effects
(network requests, sleeps, directory creation, file writes) it performed.
-/

namespace Inkbunny

/-- Fixed retry budget (`self.retry_count = 3` in `InkbunnyDownloader.__init__`). -/
def retryCount : Nat := 3

/-- Fixed inter-attempt delay (`self.retry_delay = 5`). -/
def retryDelay : Nat := 5

/-- Local filesystem: association list from file path to file bytes. -/
abbrev FS := List (String × List Nat)

/-- Lookup of a path in the filesystem (first match wins). -/
def fsLookup (p : String) : FS → Option (List Nat)
  | [] => none
  | (q, v) :: rest => if q = p then some v else fsLookup p rest

/-- `Path.exists()` on the embedded filesystem. -/
def fsExists (p : String) (fs : FS) : Bool := (fsLookup p fs).isSome

/-- `open(filepath, 'wb')` followed by writing `v`: the path now maps to `v`. -/
def fsWrite (p : String) (v : List Nat) (fs : FS) : FS := (p, v) :: fs

/-- Total number of bytes stored on disk. -/
def fsBytes (fs : FS) : Nat := (fs.map (fun e => e.2.length)).sum

/-- Filesystem growth order: every path present in `a` is present in `b`. -/
def FSLe (a b : FS) : Prop := ∀ p, fsExists p a = true → fsExists p b = true

/-- `os.path.join` for the paths this program builds. -/
def joinPath (a b : String) : String := a ++ "/" ++ b

/-- Python truthiness of an optional string (`None` and `""` are falsy). -/
def pyTruthy : Option String → Bool
  | some s => !s.isEmpty
  | none => false

/-- Python `a or b` on optional strings. -/
def pyOr (a b : Option String) : Option String := if pyTruthy a then a else b

/-- Observable effects of the program. -/
inductive Event
  | loginPost
  | userSearch (username : String)
  | pageFetch (userId : String) (page : Nat)
  | filesFetch (submissionId : String)
  | fileGet (url : String)
  | sleep (t : Nat)
  | mkdirs (path : String)
  | writeFile (path : String)
deriving DecidableEq

/-- Whether an event is an outbound network request. -/
def Event.isNet : Event → Bool
  | .loginPost => true
  | .userSearch _ => true
  | .pageFetch _ _ => true
  | .filesFetch _ => true
  | .fileGet _ => true
  | _ => false

/-- Response to the login POST: HTTP 200 with optional `sid` field,
a non-200 status, or a transport-level (`aiohttp.ClientError`) failure. -/
inductive LoginResp
  | ok (sid : Option String)
  | status (code : Nat)
  | transport
deriving DecidableEq

/-- A submission record of the search response (`{submission_id, title, ...}`);
absent keys are `none`. -/
structure Submission where
  submission_id : Option String
  title : Option String
deriving DecidableEq

/-- A record of the user-search response; `user_id` is read by direct indexing. -/
structure UserRec where
  user_id : String
deriving DecidableEq

/-- Response to the user-lookup search request. -/
inductive UserSearchResp
  | ok (submissions : Option (List UserRec))
  | status (code : Nat)
  | transport
deriving DecidableEq

/-- Response to a page-search request: HTTP 200 with optional `pages_count`
and `submissions` keys, a non-200 status, or a transport failure. -/
inductive SearchResp
  | ok (pagesCount : Option Int) (submissions : Option (List Submission))
  | status (code : Nat)
  | transport
deriving DecidableEq

/-- A file object inside a submission's file info (`files` array element). -/
structure FileObj where
  file_url_full : Option String
  file_url_screen : Option String
  file_name : Option String
deriving DecidableEq

/-- One element of the `submissions` array of `api_submissions.php`. -/
structure FileInfo where
  files : Option (List FileObj)
deriving DecidableEq

/-- Response to the per-submission file-metadata request. -/
inductive FilesResp
  | ok (submissions : Option (List FileInfo))
  | status (code : Nat)
  | transport
deriving DecidableEq

/-- Response to a raw file GET. -/
inductive NetResp
  | ok (body : List Nat)
  | status (code : Nat)
  | transport
deriving DecidableEq

/-- The part of the configuration the pipeline reads. -/
structure Config where
  baseUrl : String
  submissionsPerPage : Nat
  submissionTypes : String
  betweenFiles : Nat
  betweenPages : Nat
  username : String
  password : String
  saveDirectory : String
  artistUsername : String
deriving DecidableEq

/-- The remote service, as a deterministic oracle: each endpoint/argument has
one fixed response (an unchanged remote dataset). -/
structure Remote where
  login : LoginResp
  userSearch : UserSearchResp
  page : Nat → SearchResp
  files : String → FilesResp
  download : String → NetResp

/-- `InkbunnyDownloader.login`, the retry loop over `range(self.retry_count)`:
HTTP 200 with a `sid` stores the session and returns; 200 without `sid` and
non-200 statuses consume the attempt without a delay; a transport error sleeps
`retry_delay` before the next attempt (except after the last). -/
def loginLoop (net : Nat → LoginResp) : List Nat → Option String × List Event
  | [] => (none, [])
  | attempt :: rest =>
    match net attempt with
    | .ok (some sid) => (some sid, [.loginPost])
    | .ok none =>
      let r := loginLoop net rest
      (r.1, .loginPost :: r.2)
    | .status _ =>
      let r := loginLoop net rest
      (r.1, .loginPost :: r.2)
    | .transport =>
      let r := loginLoop net rest
      if attempt < retryCount - 1 then (r.1, .loginPost :: .sleep retryDelay :: r.2)
      else (r.1, .loginPost :: r.2)

/-- `login`: runs the attempt loop; the returned session is `none` exactly
when the Python method returns `False`. -/
def login (net : Nat → LoginResp) : Option String × List Event :=
  loginLoop net (List.range retryCount)

/-- `InkbunnyDownloader.get_user_id`: raises "Not logged in" on a falsy
session; otherwise one GET, returning the first search hit's `user_id`,
or `none` on empty result, non-200 or transport error. -/
def getUserId (sid : Option String) (username : String) (resp : UserSearchResp) :
    Except String (Option String) × List Event :=
  if pyTruthy sid = false then (.error "Not logged in", [])
  else
    match resp with
    | .ok subs =>
      match subs.getD [] with
      | [] => (.ok none, [.userSearch username])
      | u :: _ => (.ok (some u.user_id), [.userSearch username])
    | .status _ => (.ok none, [.userSearch username])
    | .transport => (.ok none, [.userSearch username])

/-- `InkbunnyDownloader.get_user_submissions`: raises "Not logged in" on a
falsy session; on HTTP 200, `pages_count` defaults to 1 and the submission
list to empty; on non-200 or transport error, returns `([], 0)`. -/
def getUserSubmissions (sid : Option String) (userId : String) (page : Nat)
    (resp : SearchResp) : Except String (List Submission × Int) × List Event :=
  if pyTruthy sid = false then (.error "Not logged in", [])
  else
    match resp with
    | .ok pc subs => (.ok (subs.getD [], pc.getD 1), [.pageFetch userId page])
    | .status _ => (.ok ([], 0), [.pageFetch userId page])
    | .transport => (.ok ([], 0), [.pageFetch userId page])

/-- `InkbunnyDownloader.get_submission_files`: raises "Not logged in" on a
falsy session; otherwise one GET, returning the `submissions` array
(defaulting to empty), or empty on non-200 or transport error. -/
def getSubmissionFiles (sid : Option String) (submissionId : String)
    (resp : FilesResp) : Except String (List FileInfo) × List Event :=
  if pyTruthy sid = false then (.error "Not logged in", [])
  else
    match resp with
    | .ok subs => (.ok (subs.getD []), [.filesFetch submissionId])
    | .status _ => (.ok [], [.filesFetch submissionId])
    | .transport => (.ok [], [.filesFetch submissionId])

/-- Result of a `download_file` call. -/
structure DlRes where
  ok : Bool
  fs : FS
  evs : List Event
deriving DecidableEq

/-- The retry loop of `download_file` over `range(self.retry_count)`:
HTTP 200 streams the body to `filepath` and returns success; a non-200 status
consumes the attempt without a delay; a transport error sleeps `retry_delay`
before the next attempt (except after the last). -/
def downloadLoop (url filepath : String) (net : Nat → NetResp) :
    List Nat → FS → DlRes
  | [], fs => ⟨false, fs, []⟩
  | attempt :: rest, fs =>
    match net attempt with
    | .ok body => ⟨true, fsWrite filepath body fs, [.fileGet url, .writeFile filepath]⟩
    | .status _ =>
      let r := downloadLoop url filepath net rest fs
      ⟨r.ok, r.fs, .fileGet url :: r.evs⟩
    | .transport =>
      let r := downloadLoop url filepath net rest fs
      if attempt < retryCount - 1 then
        ⟨r.ok, r.fs, .fileGet url :: .sleep retryDelay :: r.evs⟩
      else ⟨r.ok, r.fs, .fileGet url :: r.evs⟩

/-- `InkbunnyDownloader.download_file`: creates `save_dir/artist_username`
(`os.makedirs(..., exist_ok=True)`), then returns success immediately if the
target file exists, else runs the retry loop. -/
def downloadFile (cfg : Config) (url filename saveDir : String)
    (net : Nat → NetResp) (fs : FS) : DlRes :=
  let artistFolder := joinPath saveDir cfg.artistUsername
  let filepath := joinPath artistFolder filename
  if fsExists filepath fs then ⟨true, fs, [.mkdirs artistFolder]⟩
  else
    let r := downloadLoop url filepath net (List.range retryCount) fs
    ⟨r.ok, r.fs, .mkdirs artistFolder :: r.evs⟩

/-- The title-cleaning step of `process_submission`:
`"".join(c for c in title if c.isalnum() or c in (' ', '-', '_'))[:50]`. -/
def cleanTitle (title : String) : String :=
  String.mk ((title.toList.filter
    (fun c => c.isAlphanum || c == ' ' || c == '-' || c == '_')).take 50)

/-- `f"{clean_title}_{original_filename}"`. -/
def mkFilename (title originalFilename : String) : String :=
  cleanTitle title ++ "_" ++ originalFilename

/-- `url = file_obj.get("file_url_full") or file_obj.get("file_url_screen")`,
followed by the `if not url` truthiness test: `some` exactly when the entry
yields a usable URL. -/
def resolveUrl (f : FileObj) : Option String :=
  let u := pyOr f.file_url_full f.file_url_screen
  if pyTruthy u then u else none

/-- Result of the per-file loops of `process_submission`. -/
structure PflRes where
  count : Nat
  allExist : Bool
  fs : FS
  evs : List Event
deriving DecidableEq

/-- The name `process_submission` builds for a file object:
`f"{clean_title}_{original_filename}"` with `file_name` defaulting to `""`. -/
def objFilename (title : String) (obj : FileObj) : String :=
  mkFilename title (obj.file_name.getD "")

/-- The target path `process_submission` checks:
`save_directory/artist_username/filename`. -/
def targetPath (cfg : Config) (title : String) (obj : FileObj) : String :=
  joinPath (joinPath cfg.saveDirectory cfg.artistUsername) (objFilename title obj)

/-- The inner `for file_obj in file_info.get("files", [])` loop of
`process_submission`: entries without a usable URL are skipped; for the rest
the target path is computed, existing files are left alone, and missing files
are handed to `download_file` (the oracle `net` gives each URL's fixed
response), sleeping `between_files` after each successful download. -/
def processFileList (cfg : Config) (net : String → NetResp) (title : String) :
    List FileObj → FS → PflRes
  | [], fs => ⟨0, true, fs, []⟩
  | obj :: rest, fs =>
    match resolveUrl obj with
    | none => processFileList cfg net title rest fs
    | some url =>
      if fsExists (targetPath cfg title obj) fs then processFileList cfg net title rest fs
      else
        let d := downloadFile cfg url (objFilename title obj) cfg.saveDirectory
          (fun _ => net url) fs
        let t := processFileList cfg net title rest d.fs
        if d.ok then
          ⟨t.count + 1, false, t.fs, d.evs ++ [.sleep cfg.betweenFiles] ++ t.evs⟩
        else ⟨t.count, false, t.fs, d.evs ++ t.evs⟩

/-- The outer `for file_info in files_info` loop of `process_submission`. -/
def processFileInfos (cfg : Config) (net : String → NetResp) (title : String) :
    List FileInfo → FS → PflRes
  | [], fs => ⟨0, true, fs, []⟩
  | fi :: rest, fs =>
    let r := processFileList cfg net title (fi.files.getD []) fs
    let t := processFileInfos cfg net title rest r.fs
    ⟨r.count + t.count, r.allExist && t.allExist, t.fs, r.evs ++ t.evs⟩

instance {α β : Type} [DecidableEq α] [DecidableEq β] : DecidableEq (Except α β) :=
  fun a b =>
    match a, b with
    | .ok x, .ok y =>
      if h : x = y then .isTrue (by rw [h]) else .isFalse (by simp [h])
    | .error x, .error y =>
      if h : x = y then .isTrue (by rw [h]) else .isFalse (by simp [h])
    | .ok _, .error _ => .isFalse (by simp)
    | .error _, .ok _ => .isFalse (by simp)

/-- Result of `process_submission`: either the `(downloaded_count,
all_files_exist)` pair or a propagated exception. -/
structure PSRes where
  res : Except String (Nat × Bool)
  fs : FS
  evs : List Event
deriving DecidableEq

/-- `InkbunnyDownloader.process_submission`: indexing
`submission["submission_id"]` raises `KeyError` when the key is absent;
`title` defaults to `"untitled"`; file metadata is fetched and the nested
file loops are run. -/
def processSubmission (cfg : Config) (files : String → FilesResp)
    (net : String → NetResp) (sid : Option String) (s : Submission) (fs : FS) :
    PSRes :=
  match s.submission_id with
  | none => ⟨.error "KeyError: submission_id", fs, []⟩
  | some subId =>
    let title := s.title.getD "untitled"
    match getSubmissionFiles sid subId (files subId) with
    | (.error e, evs) => ⟨.error e, fs, evs⟩
    | (.ok filesInfo, evs) =>
      let r := processFileInfos cfg net title filesInfo fs
      ⟨.ok (r.count, r.allExist), r.fs, evs ++ r.evs⟩

/-- Result of a run of the orchestrator (or one of its loops): downloads
performed, the propagated exception if one escaped, the final filesystem,
and the effect trace. -/
structure StepRes where
  count : Nat
  err : Option String
  fs : FS
  evs : List Event
deriving DecidableEq

/-- The `for submission in submissions` loop of `main`: accumulates the
per-submission download counts; an exception aborts the loop. -/
def processSubmissions (cfg : Config) (files : String → FilesResp)
    (net : String → NetResp) (sid : Option String) :
    List Submission → FS → StepRes
  | [], fs => ⟨0, none, fs, []⟩
  | s :: rest, fs =>
    let r := processSubmission cfg files net sid s fs
    match r.res with
    | .error e => ⟨0, some e, r.fs, r.evs⟩
    | .ok (n, _) =>
      let t := processSubmissions cfg files net sid rest r.fs
      ⟨n + t.count, t.err, t.fs, r.evs ++ t.evs⟩

/-- The `while page <= total_pages` loop of `main`. The first iteration uses
the pre-fetched page-1 submissions; later iterations re-fetch their page and
break on an empty result. After a non-final page, `between_pages` is slept.
The loop bound `total` comes from the first page fetch only; re-fetch
page counts are discarded (`submissions, _ = ...`). The structural `fuel`
argument dominates the number of remaining iterations and is supplied by
`runMain` as `(total + 1).toNat`, which the loop never exhausts. -/
def pageLoop (cfg : Config) (remote : Remote) (sid : Option String)
    (uid : String) (total : Int) : Nat → Nat → List Submission → FS → StepRes
  | 0, _, _, fs => ⟨0, none, fs, []⟩
  | fuel + 1, page, subs, fs =>
    if (page : Int) ≤ total then
      match (if page > 1
             then getUserSubmissions sid uid page (remote.page page)
             else (.ok (subs, 0), [])) with
      | (.error e, evs) => ⟨0, some e, fs, evs⟩
      | (.ok (subsCur, _), evs) =>
        if page > 1 && subsCur.isEmpty then ⟨0, none, fs, evs⟩
        else
          let r := processSubmissions cfg remote.files remote.download sid subsCur fs
          match r.err with
          | some e => ⟨r.count, some e, r.fs, evs ++ r.evs⟩
          | none =>
            if (page : Int) = total then ⟨r.count, none, r.fs, evs ++ r.evs⟩
            else
              let t := pageLoop cfg remote sid uid total fuel (page + 1) subsCur r.fs
              ⟨r.count + t.count, t.err, t.fs,
                evs ++ r.evs ++ [.sleep cfg.betweenPages] ++ t.evs⟩
    else ⟨0, none, fs, []⟩

/-- Result of a whole pipeline run. -/
structure RunRes where
  count : Nat
  err : Option String
  fs : FS
  evs : List Event
deriving DecidableEq

/-- The orchestrator `main`: login (abort on failure), artist lookup (abort
when falsy), page-1 fetch (abort when empty), then the page loop. A raised
exception is caught by the top-level handler and recorded in `err`. -/
def runMain (cfg : Config) (remote : Remote) (fs : FS) : RunRes :=
  let l := login (fun _ => remote.login)
  match l.1 with
  | none => ⟨0, none, fs, l.2⟩
  | some sid =>
    match getUserId (some sid) cfg.artistUsername remote.userSearch with
    | (.error e, evs) => ⟨0, some e, fs, l.2 ++ evs⟩
    | (.ok uidOpt, evs) =>
      if pyTruthy uidOpt = false then ⟨0, none, fs, l.2 ++ evs⟩
      else
        let uid := uidOpt.getD ""
        match getUserSubmissions (some sid) uid 1 (remote.page 1) with
        | (.error e, evs2) => ⟨0, some e, fs, l.2 ++ evs ++ evs2⟩
        | (.ok (subs, total), evs2) =>
          if subs.isEmpty then ⟨0, none, fs, l.2 ++ evs ++ evs2⟩
          else
            let r := pageLoop cfg remote (some sid) uid total (total + 1).toNat 1 subs fs
            ⟨r.count, r.err, r.fs, l.2 ++ evs ++ evs2 ++ r.evs⟩

/-- A leaf value of the raw JSON configuration. -/
inductive CVal
  | str (s : String)
  | num (n : Int)
deriving DecidableEq

/-- The `delay` sub-dict of the raw configuration; absent keys are `none`. -/
structure RawDelay where
  between_files : Option CVal
  between_pages : Option CVal
deriving DecidableEq

/-- The `api` section of the raw configuration. -/
structure RawAPI where
  base_url : Option CVal
  submissions_per_page : Option CVal
  submission_types : Option CVal
  delay : Option RawDelay
deriving DecidableEq

/-- The `credentials` section of the raw configuration. -/
structure RawCredentials where
  username : Option CVal
  password : Option CVal
deriving DecidableEq

/-- The `download` section of the raw configuration. -/
structure RawDownload where
  artist_username : Option CVal
  save_directory : Option CVal
deriving DecidableEq

/-- The raw configuration dict; absent sections are `none`. -/
structure RawConfig where
  api : Option RawAPI
  credentials : Option RawCredentials
  download : Option RawDownload
deriving DecidableEq

/-- The `try` body of `ConfigValidator.validate_config`: checks each section
and its fields in iteration order and raises `ValueError` at the first
missing key; finally checks both `delay` sub-keys. -/
def validateConfigE (c : RawConfig) : Except String Unit :=
  match c.api with
  | none => .error "Missing section: api"
  | some a =>
    match a.base_url with
    | none => .error "Missing field: base_url in section api"
    | some _ =>
      match a.submissions_per_page with
      | none => .error "Missing field: submissions_per_page in section api"
      | some _ =>
        match a.submission_types with
        | none => .error "Missing field: submission_types in section api"
        | some _ =>
          match a.delay with
          | none => .error "Missing field: delay in section api"
          | some d =>
            match c.credentials with
            | none => .error "Missing section: credentials"
            | some cr =>
              match cr.username with
              | none => .error "Missing field: username in section credentials"
              | some _ =>
                match cr.password with
                | none => .error "Missing field: password in section credentials"
                | some _ =>
                  match c.download with
                  | none => .error "Missing section: download"
                  | some dn =>
                    match dn.artist_username with
                    | none => .error "Missing field: artist_username in section download"
                    | some _ =>
                      match dn.save_directory with
                      | none => .error "Missing field: save_directory in section download"
                      | some _ =>
                        if d.between_files.isNone || d.between_pages.isNone then
                          .error "Missing delay configuration"
                        else .ok ()

/-- `ConfigValidator.validate_config`: `true` on success; on the first
missing key, logs one message and returns `false`. -/
def validateConfig (c : RawConfig) : Bool × List String :=
  match validateConfigE c with
  | .ok _ => (true, [])
  | .error e => (false, ["Configuration validation failed: " ++ e])

/-- `InkbunnyDownloader.__init__`: raises `ValueError` when validation fails;
performs no network activity either way. -/
def mkDownloader (c : RawConfig) : Except String RawConfig × List Event :=
  if (validateConfig c).1 then (.ok c, []) else (.error "Invalid configuration", [])

/-- Modelled from the spec's words (for comparison with `validateConfig`):
"all required fields are present and non-empty", where a string value is
non-empty when it has at least one character. -/
def cvalNonEmpty : Option CVal → Bool
  | some (.str s) => !s.isEmpty
  | some (.num _) => true
  | none => false

/-- Modelled from the spec's words (for comparison with `validateConfig`):
every required section, field and `delay` sub-key is present and non-empty. -/
def requiredPresentNonEmpty (c : RawConfig) : Bool :=
  match c.api, c.credentials, c.download with
  | some a, some cr, some dn =>
    cvalNonEmpty a.base_url && cvalNonEmpty a.submissions_per_page &&
    cvalNonEmpty a.submission_types &&
    (match a.delay with
     | some d => cvalNonEmpty d.between_files && cvalNonEmpty d.between_pages
     | none => false) &&
    cvalNonEmpty cr.username && cvalNonEmpty cr.password &&
    cvalNonEmpty dn.artist_username && cvalNonEmpty dn.save_directory
  | _, _, _ => false

/-- Events relevant to pagination: page fetches and `between_pages` sleeps
(`bp` is the configured `between_pages` value). -/
def isPageEvent (bp : Nat) : Event → Bool
  | .pageFetch _ _ => true
  | .sleep t => t == bp
  | _ => false

/-- Presence of every required key (no emptiness check): the condition
`validate_config` actually decides. -/
def requiredKeysPresent (c : RawConfig) : Bool :=
  match c.api, c.credentials, c.download with
  | some a, some cr, some dn =>
    a.base_url.isSome && a.submissions_per_page.isSome &&
    a.submission_types.isSome && a.delay.isSome &&
    cr.username.isSome && cr.password.isSome &&
    dn.artist_username.isSome && dn.save_directory.isSome &&
    (match a.delay with
     | some d => d.between_files.isSome && d.between_pages.isSome
     | none => false)
  | _, _, _ => false

/-! ### Filesystem order lemmas -/

theorem FSLe_refl (a : FS) : FSLe a a := fun _ h => h

theorem FSLe_trans {a b c : FS} (h1 : FSLe a b) (h2 : FSLe b c) : FSLe a c :=
  fun p h => h2 p (h1 p h)

theorem fsExists_write_self (p : String) (v : List Nat) (fs : FS) :
    fsExists p (fsWrite p v fs) = true := by
  simp [fsExists, fsWrite, fsLookup]

theorem FSLe_write (p : String) (v : List Nat) (fs : FS) : FSLe fs (fsWrite p v fs) := by
  intro q hq
  simp only [fsExists, fsWrite, fsLookup]
  by_cases h : p = q
  · simp [h]
  · simpa [h, fsExists] using hq

/-! ### `download_file` branch lemmas -/

theorem downloadFile_exists_eq (cfg : Config) (url filename saveDir : String)
    (net : Nat → NetResp) (fs : FS)
    (h : fsExists (joinPath (joinPath saveDir cfg.artistUsername) filename) fs = true) :
    downloadFile cfg url filename saveDir net fs =
      ⟨true, fs, [.mkdirs (joinPath saveDir cfg.artistUsername)]⟩ := by
  simp [downloadFile, h]

theorem downloadFile_not_exists_eq (cfg : Config) (url filename saveDir : String)
    (net : Nat → NetResp) (fs : FS)
    (h : fsExists (joinPath (joinPath saveDir cfg.artistUsername) filename) fs = false) :
    downloadFile cfg url filename saveDir net fs =
      ⟨(downloadLoop url (joinPath (joinPath saveDir cfg.artistUsername) filename) net
          (List.range retryCount) fs).ok,
        (downloadLoop url (joinPath (joinPath saveDir cfg.artistUsername) filename) net
          (List.range retryCount) fs).fs,
        .mkdirs (joinPath saveDir cfg.artistUsername) ::
          (downloadLoop url (joinPath (joinPath saveDir cfg.artistUsername) filename) net
            (List.range retryCount) fs).evs⟩ := by
  simp [downloadFile, h]

/-! ### Claim C1: idempotent skip of `download_file` -/

/-- C1: if the target path `save_dir/artist_username/filename` already exists,
`download_file` returns `true` and performs no network request. -/
theorem downloadFile_existing_skips_network (cfg : Config)
    (url filename saveDir : String) (net : Nat → NetResp) (fs : FS)
    (h : fsExists (joinPath (joinPath saveDir cfg.artistUsername) filename) fs = true) :
    (downloadFile cfg url filename saveDir net fs).ok = true ∧
    (downloadFile cfg url filename saveDir net fs).evs.filter Event.isNet = [] := by
  rw [downloadFile_exists_eq cfg url filename saveDir net fs h]
  simp [Event.isNet]

/-- Witness for C1 at a concrete configuration and filesystem. -/
theorem downloadFile_existing_skips_network_witness :
    (downloadFile ⟨"b", 1, "t", 1, 2, "u", "p", "save", "artist"⟩ "http://x" "f.png"
      "save" (fun _ => .transport) [("save/artist/f.png", [1, 2])]).ok = true ∧
    (downloadFile ⟨"b", 1, "t", 1, 2, "u", "p", "save", "artist"⟩ "http://x" "f.png"
      "save" (fun _ => .transport) [("save/artist/f.png", [1, 2])]).evs.filter
        Event.isNet = [] :=
  downloadFile_existing_skips_network _ _ _ _ _ _ (by decide)

/-! ### Claim C9: the artist directory is created even on the skip branch -/

/-- C9: every `download_file` call makes `save_dir/artist_username` first
(`os.makedirs` with `exist_ok` precedes the existence check), and on the
skip branch that directory creation is the only filesystem effect. -/
theorem downloadFile_mkdirs_always (cfg : Config) (url filename saveDir : String)
    (net : Nat → NetResp) (fs : FS) :
    (downloadFile cfg url filename saveDir net fs).evs.head? =
      some (.mkdirs (joinPath saveDir cfg.artistUsername)) ∧
    (fsExists (joinPath (joinPath saveDir cfg.artistUsername) filename) fs = true →
      (downloadFile cfg url filename saveDir net fs).evs =
        [.mkdirs (joinPath saveDir cfg.artistUsername)]) := by
  constructor
  · cases h : fsExists (joinPath (joinPath saveDir cfg.artistUsername) filename) fs
    · rw [downloadFile_not_exists_eq cfg url filename saveDir net fs h]
      rfl
    · rw [downloadFile_exists_eq cfg url filename saveDir net fs h]
      rfl
  · intro h
    rw [downloadFile_exists_eq cfg url filename saveDir net fs h]

/-- Witness for C9 at a concrete input on the skip branch. -/
theorem downloadFile_mkdirs_always_witness :
    (downloadFile ⟨"b", 1, "t", 1, 2, "u", "p", "save", "artist"⟩ "http://x" "f.png"
      "save" (fun _ => .transport) [("save/artist/f.png", [1, 2])]).evs =
      [.mkdirs "save/artist"] :=
  (downloadFile_mkdirs_always ⟨"b", 1, "t", 1, 2, "u", "p", "save", "artist"⟩
    "http://x" "f.png" "save" (fun _ => .transport)
    [("save/artist/f.png", [1, 2])]).2 (by decide)

/-! ### Claim C3: retry bound for `login` and `download_file` -/

/-- C3: when every attempt fails at transport level, `login` and
`download_file` perform exactly 3 attempts with the 5-unit delay between
consecutive attempts and return failure; non-200 responses consume a retry
slot without any delay. -/
theorem retry_bound_three_attempts (cfg : Config) (url filename saveDir : String)
    (fs : FS) (c c' : Nat)
    (h : fsExists (joinPath (joinPath saveDir cfg.artistUsername) filename) fs = false) :
    login (fun _ => .transport) =
      (none, [.loginPost, .sleep retryDelay, .loginPost, .sleep retryDelay, .loginPost]) ∧
    login (fun _ => .status c) = (none, [.loginPost, .loginPost, .loginPost]) ∧
    downloadFile cfg url filename saveDir (fun _ => .transport) fs =
      ⟨false, fs,
        [.mkdirs (joinPath saveDir cfg.artistUsername), .fileGet url, .sleep retryDelay,
          .fileGet url, .sleep retryDelay, .fileGet url]⟩ ∧
    downloadFile cfg url filename saveDir (fun _ => .status c') fs =
      ⟨false, fs,
        [.mkdirs (joinPath saveDir cfg.artistUsername), .fileGet url, .fileGet url,
          .fileGet url]⟩ := by
  refine ⟨rfl, rfl, ?_, ?_⟩
  · rw [downloadFile_not_exists_eq cfg url filename saveDir _ fs h]
    rfl
  · rw [downloadFile_not_exists_eq cfg url filename saveDir _ fs h]
    rfl

/-- Witness for C3 at a concrete configuration and empty filesystem. -/
theorem retry_bound_three_attempts_witness :
    downloadFile ⟨"b", 1, "t", 1, 2, "u", "p", "save", "artist"⟩ "http://x" "f.png"
      "save" (fun _ => .transport) [] =
      ⟨false, [],
        [.mkdirs "save/artist", .fileGet "http://x", .sleep retryDelay,
          .fileGet "http://x", .sleep retryDelay, .fileGet "http://x"]⟩ :=
  (retry_bound_three_attempts ⟨"b", 1, "t", 1, 2, "u", "p", "save", "artist"⟩
    "http://x" "f.png" "save" [] 500 404 (by decide)).2.2.1

/-! ### Claim C6: enumerator failure and default semantics -/

/-- C6: with a live session, `get_user_submissions` returns an empty list and
zero total pages on transport error or non-200 status; on HTTP 200 the page
count defaults to 1 and the submission list to empty when absent. -/
theorem getUserSubmissions_defaults (sid : Option String) (uid : String)
    (page : Nat) (c : Nat) (pc : Option Int) (subs : Option (List Submission))
    (h : pyTruthy sid = true) :
    getUserSubmissions sid uid page .transport = (.ok ([], 0), [.pageFetch uid page]) ∧
    getUserSubmissions sid uid page (.status c) = (.ok ([], 0), [.pageFetch uid page]) ∧
    getUserSubmissions sid uid page (.ok none subs) =
      (.ok (subs.getD [], 1), [.pageFetch uid page]) ∧
    getUserSubmissions sid uid page (.ok pc none) =
      (.ok ([], pc.getD 1), [.pageFetch uid page]) := by
  refine ⟨?_, ?_, ?_, ?_⟩ <;> simp [getUserSubmissions, h]

/-- Witness for C6 at a concrete session and page. -/
theorem getUserSubmissions_defaults_witness :
    getUserSubmissions (some "S") "U1" 2 .transport =
      (.ok ([], 0), [.pageFetch "U1" 2]) ∧
    getUserSubmissions (some "S") "U1" 2 (.status 500) =
      (.ok ([], 0), [.pageFetch "U1" 2]) ∧
    getUserSubmissions (some "S") "U1" 2 (.ok none none) =
      (.ok ([], 1), [.pageFetch "U1" 2]) ∧
    getUserSubmissions (some "S") "U1" 2 (.ok (some 7) none) =
      (.ok ([], 7), [.pageFetch "U1" 2]) :=
  getUserSubmissions_defaults (some "S") "U1" 2 500 (some 7) none (by decide)

/-! ### Claim C7: unauthenticated calls raise synchronously -/

/-- C7: with no session token held, `get_user_id`, `get_user_submissions`
and `get_submission_files` raise "Not logged in" with no retry and no
network request. -/
theorem not_logged_in_no_network (username uid subId : String) (page : Nat)
    (r1 : UserSearchResp) (r2 : SearchResp) (r3 : FilesResp) :
    getUserId none username r1 = (.error "Not logged in", []) ∧
    getUserSubmissions none uid page r2 = (.error "Not logged in", []) ∧
    getSubmissionFiles none subId r3 = (.error "Not logged in", []) := by
  refine ⟨?_, ?_, ?_⟩ <;> simp [getUserId, getUserSubmissions, getSubmissionFiles, pyTruthy]

/-! ### Claim C8: filename construction -/

/-- C8: the title `"Foo/Bar: Baz!!"` cleans to `"FooBar Baz"` (alphanumerics,
spaces, hyphens and underscores kept, truncated to 50 characters) and the
final filename composes as `"{cleaned_title}_{original_file_name}"`. -/
theorem filename_construction :
    cleanTitle "Foo/Bar: Baz!!" = "FooBar Baz" ∧
    mkFilename "Foo/Bar: Baz!!" "img.png" = "FooBar Baz_img.png" := by
  decide

/-! ### Claim C10: missing-key asymmetry in `process_submission` -/

/-- C10: a submission without `submission_id` raises a `KeyError` that
propagates out of `process_submission` (aborting the submission loop), while
a missing `title` defaults to `"untitled"` and a missing `file_name` to `""`;
a falsy `file_url_full` falls back to `file_url_screen`, and an entry with no
usable URL is skipped non-fatally. -/
theorem processSubmission_missing_keys (cfg : Config) (files : String → FilesResp)
    (net : String → NetResp) (sid : Option String) (t fn : Option String)
    (id_ : String) (s2 : Submission) (rest : List FileObj) (fs fs2 : FS)
    (title scr : String) :
    processSubmission cfg files net sid ⟨none, t⟩ fs =
      ⟨.error "KeyError: submission_id", fs, []⟩ ∧
    (processSubmissions cfg files net sid (⟨none, t⟩ :: [s2]) fs).err =
      some "KeyError: submission_id" ∧
    processSubmission cfg files net sid ⟨some id_, none⟩ fs =
      processSubmission cfg files net sid ⟨some id_, some "untitled"⟩ fs ∧
    processFileList cfg net title (⟨none, some "u", none⟩ :: rest) fs2 =
      processFileList cfg net title (⟨none, some "u", some ""⟩ :: rest) fs2 ∧
    resolveUrl ⟨none, some scr, fn⟩ = (if scr.isEmpty then none else some scr) ∧
    resolveUrl ⟨some "", some scr, fn⟩ = (if scr.isEmpty then none else some scr) ∧
    resolveUrl ⟨none, none, fn⟩ = none ∧
    processFileList cfg net title (⟨none, none, fn⟩ :: rest) fs2 =
      processFileList cfg net title rest fs2 := by
  refine ⟨rfl, rfl, rfl, rfl, ?_, ?_, rfl, ?_⟩
  · cases hscr : scr.isEmpty <;> simp [resolveUrl, pyOr, pyTruthy, hscr]
  · have h0 : "".isEmpty = true := rfl
    cases hscr : scr.isEmpty <;> simp [resolveUrl, pyOr, pyTruthy, hscr, h0]
  · simp [processFileList, resolveUrl, pyOr, pyTruthy]

/-! ### Claim C5: configuration validation gate -/

theorem validateConfig_eq_requiredKeysPresent (c : RawConfig) :
    (validateConfig c).1 = requiredKeysPresent c := by
  obtain ⟨a, cr, dn⟩ := c
  cases a with
  | none => cases cr <;> cases dn <;> rfl
  | some a =>
    obtain ⟨bu, spp, st, dl⟩ := a
    cases bu with
    | none => cases cr <;> cases dn <;> rfl
    | some bu =>
      cases spp with
      | none => cases cr <;> cases dn <;> rfl
      | some spp =>
        cases st with
        | none => cases cr <;> cases dn <;> rfl
        | some st =>
          cases dl with
          | none => cases cr <;> cases dn <;> rfl
          | some dl =>
            obtain ⟨bf, bp⟩ := dl
            cases cr with
            | none => cases dn <;> rfl
            | some cr =>
              obtain ⟨u, pw⟩ := cr
              cases u with
              | none => cases dn <;> rfl
              | some u =>
                cases pw with
                | none => cases dn <;> rfl
                | some pw =>
                  cases dn with
                  | none => rfl
                  | some dn =>
                    obtain ⟨au, sd⟩ := dn
                    cases au with
                    | none => rfl
                    | some au =>
                      cases sd with
                      | none => rfl
                      | some sd => cases bf <;> cases bp <;> rfl

/-- C5 counterexample: a configuration with every required key present but an
empty `credentials.username` string passes `validate_config`, refuting the
claimed equivalence between validation success and "all required fields
present and non-empty". -/
theorem validateConfig_nonempty_counterexample :
    ¬(((validateConfig
        ⟨some ⟨some (.str "https://inkbunny.net/"), some (.num 100),
          some (.str "1,2,3,4,5"), some ⟨some (.num 1), some (.num 2)⟩⟩,
         some ⟨some (.str ""), some (.str "pw")⟩,
         some ⟨some (.str "artist"), some (.str "downloads")⟩⟩).1 = true) ↔
      (requiredPresentNonEmpty
        ⟨some ⟨some (.str "https://inkbunny.net/"), some (.num 100),
          some (.str "1,2,3,4,5"), some ⟨some (.num 1), some (.num 2)⟩⟩,
         some ⟨some (.str ""), some (.str "pw")⟩,
         some ⟨some (.str "artist"), some (.str "downloads")⟩⟩ = true)) := by
  decide

/-- C5 amended: `validate_config` returns true iff every required key is
present (emptiness is not checked); when it returns false, exactly one
message (for the first missing key) is logged, `InkbunnyDownloader`
construction raises, and zero network calls are made. -/
theorem validateConfig_amended (c : RawConfig) :
    ((validateConfig c).1 = true ↔ requiredKeysPresent c = true) ∧
    ((validateConfig c).1 = false → (validateConfig c).2.length = 1) ∧
    ((validateConfig c).1 = false →
      mkDownloader c = (.error "Invalid configuration", [])) := by
  refine ⟨by rw [validateConfig_eq_requiredKeysPresent], ?_, ?_⟩
  · intro h
    unfold validateConfig at h ⊢
    cases hv : validateConfigE c <;> simp [hv] at h ⊢
  · intro h
    simp [mkDownloader, h]

/-- Witness for C5's amended theorem at a concrete empty configuration. -/
theorem validateConfig_amended_witness :
    ((validateConfig ⟨none, none, none⟩).1 = true ↔
      requiredKeysPresent ⟨none, none, none⟩ = true) ∧
    (validateConfig ⟨none, none, none⟩).2.length = 1 ∧
    mkDownloader ⟨none, none, none⟩ = (.error "Invalid configuration", []) :=
  ⟨(validateConfig_amended ⟨none, none, none⟩).1,
    (validateConfig_amended ⟨none, none, none⟩).2.1 (by decide),
    (validateConfig_amended ⟨none, none, none⟩).2.2 (by decide)⟩

/-! ### Download loop lemmas -/

theorem downloadLoop_ok_indep (url filepath : String) (net : Nat → NetResp)
    (l : List Nat) (fs fs' : FS) :
    (downloadLoop url filepath net l fs).ok = (downloadLoop url filepath net l fs').ok := by
  induction l with
  | nil => rfl
  | cons a rest ih =>
    cases hna : net a with
    | ok body => simp [downloadLoop, hna]
    | status c => simp only [downloadLoop, hna]; exact ih
    | transport =>
      simp only [downloadLoop, hna]
      by_cases hlt : a < retryCount - 1
      · rw [if_pos hlt, if_pos hlt]; exact ih
      · rw [if_neg hlt, if_neg hlt]; exact ih

theorem downloadLoop_fail_fs (url filepath : String) (net : Nat → NetResp)
    (l : List Nat) (fs : FS)
    (h : (downloadLoop url filepath net l fs).ok = false) :
    (downloadLoop url filepath net l fs).fs = fs := by
  induction l with
  | nil => rfl
  | cons a rest ih =>
    cases hna : net a with
    | ok body => simp [downloadLoop, hna] at h
    | status c => simp only [downloadLoop, hna] at h ⊢; exact ih h
    | transport =>
      simp only [downloadLoop, hna] at h ⊢
      by_cases hlt : a < retryCount - 1
      · rw [if_pos hlt] at h ⊢; exact ih h
      · rw [if_neg hlt] at h ⊢; exact ih h

theorem downloadLoop_ok_write (url filepath : String) (net : Nat → NetResp)
    (l : List Nat) (fs : FS)
    (h : (downloadLoop url filepath net l fs).ok = true) :
    ∃ v, (downloadLoop url filepath net l fs).fs = fsWrite filepath v fs := by
  induction l with
  | nil => simp [downloadLoop] at h
  | cons a rest ih =>
    cases hna : net a with
    | ok body => exact ⟨body, by simp [downloadLoop, hna]⟩
    | status c => simp only [downloadLoop, hna] at h ⊢; exact ih h
    | transport =>
      simp only [downloadLoop, hna] at h ⊢
      by_cases hlt : a < retryCount - 1
      · rw [if_pos hlt] at h ⊢; exact ih h
      · rw [if_neg hlt] at h ⊢; exact ih h

theorem downloadLoop_mono (url filepath : String) (net : Nat → NetResp)
    (l : List Nat) (fs : FS) :
    FSLe fs (downloadLoop url filepath net l fs).fs := by
  cases h : (downloadLoop url filepath net l fs).ok
  · rw [downloadLoop_fail_fs url filepath net l fs h]
    exact FSLe_refl fs
  · obtain ⟨v, hv⟩ := downloadLoop_ok_write url filepath net l fs h
    rw [hv]
    exact FSLe_write _ _ _

/-! ### `download_file` state lemmas -/

theorem downloadFile_mono (cfg : Config) (url filename saveDir : String)
    (net : Nat → NetResp) (fs : FS) :
    FSLe fs (downloadFile cfg url filename saveDir net fs).fs := by
  cases h : fsExists (joinPath (joinPath saveDir cfg.artistUsername) filename) fs
  · rw [downloadFile_not_exists_eq cfg url filename saveDir net fs h]
    exact downloadLoop_mono _ _ _ _ _
  · rw [downloadFile_exists_eq cfg url filename saveDir net fs h]
    exact FSLe_refl fs

theorem downloadFile_ok_write (cfg : Config) (url filename saveDir : String)
    (net : Nat → NetResp) (fs : FS)
    (he : fsExists (joinPath (joinPath saveDir cfg.artistUsername) filename) fs = false)
    (hok : (downloadFile cfg url filename saveDir net fs).ok = true) :
    ∃ v, (downloadFile cfg url filename saveDir net fs).fs =
      fsWrite (joinPath (joinPath saveDir cfg.artistUsername) filename) v fs := by
  rw [downloadFile_not_exists_eq cfg url filename saveDir net fs he] at hok ⊢
  exact downloadLoop_ok_write _ _ _ _ _ hok

theorem downloadFile_fail_fs (cfg : Config) (url filename saveDir : String)
    (net : Nat → NetResp) (fs : FS)
    (hok : (downloadFile cfg url filename saveDir net fs).ok = false) :
    (downloadFile cfg url filename saveDir net fs).fs = fs := by
  cases he : fsExists (joinPath (joinPath saveDir cfg.artistUsername) filename) fs
  · rw [downloadFile_not_exists_eq cfg url filename saveDir net fs he] at hok ⊢
    exact downloadLoop_fail_fs _ _ _ _ _ hok
  · rw [downloadFile_exists_eq cfg url filename saveDir net fs he] at hok
    simp at hok

theorem downloadFile_ok_indep (cfg : Config) (url filename saveDir : String)
    (net : Nat → NetResp) (fs fs2 : FS)
    (he : fsExists (joinPath (joinPath saveDir cfg.artistUsername) filename) fs = false)
    (he2 : fsExists (joinPath (joinPath saveDir cfg.artistUsername) filename) fs2 = false) :
    (downloadFile cfg url filename saveDir net fs).ok =
      (downloadFile cfg url filename saveDir net fs2).ok := by
  rw [downloadFile_not_exists_eq cfg url filename saveDir net fs he,
    downloadFile_not_exists_eq cfg url filename saveDir net fs2 he2]
  exact downloadLoop_ok_indep _ _ _ _ _ _

/-! ### Per-file loop branch equations -/

theorem pfl_cons_nourl (cfg : Config) (net : String → NetResp) (title : String)
    (obj : FileObj) (rest : List FileObj) (fs : FS) (h : resolveUrl obj = none) :
    processFileList cfg net title (obj :: rest) fs =
      processFileList cfg net title rest fs := by
  simp [processFileList, h]

theorem pfl_cons_exists (cfg : Config) (net : String → NetResp) (title : String)
    (obj : FileObj) (rest : List FileObj) (fs : FS) (url : String)
    (h : resolveUrl obj = some url)
    (he : fsExists (targetPath cfg title obj) fs = true) :
    processFileList cfg net title (obj :: rest) fs =
      processFileList cfg net title rest fs := by
  simp [processFileList, h, he]

theorem pfl_cons_dl (cfg : Config) (net : String → NetResp) (title : String)
    (obj : FileObj) (rest : List FileObj) (fs : FS) (url : String)
    (h : resolveUrl obj = some url)
    (he : fsExists (targetPath cfg title obj) fs = false) :
    processFileList cfg net title (obj :: rest) fs =
      (if (downloadFile cfg url (objFilename title obj) cfg.saveDirectory
            (fun _ => net url) fs).ok then
        ⟨(processFileList cfg net title rest
            (downloadFile cfg url (objFilename title obj) cfg.saveDirectory
              (fun _ => net url) fs).fs).count + 1, false,
          (processFileList cfg net title rest
            (downloadFile cfg url (objFilename title obj) cfg.saveDirectory
              (fun _ => net url) fs).fs).fs,
          (downloadFile cfg url (objFilename title obj) cfg.saveDirectory
            (fun _ => net url) fs).evs ++ [.sleep cfg.betweenFiles] ++
            (processFileList cfg net title rest
              (downloadFile cfg url (objFilename title obj) cfg.saveDirectory
                (fun _ => net url) fs).fs).evs⟩
      else
        ⟨(processFileList cfg net title rest
            (downloadFile cfg url (objFilename title obj) cfg.saveDirectory
              (fun _ => net url) fs).fs).count, false,
          (processFileList cfg net title rest
            (downloadFile cfg url (objFilename title obj) cfg.saveDirectory
              (fun _ => net url) fs).fs).fs,
          (downloadFile cfg url (objFilename title obj) cfg.saveDirectory
            (fun _ => net url) fs).evs ++
            (processFileList cfg net title rest
              (downloadFile cfg url (objFilename title obj) cfg.saveDirectory
                (fun _ => net url) fs).fs).evs⟩) := by
  simp [processFileList, h, he]

/-! ### Per-file loop state lemmas -/

theorem processFileList_mono (cfg : Config) (net : String → NetResp) (title : String) :
    ∀ (objs : List FileObj) (fs : FS),
      FSLe fs (processFileList cfg net title objs fs).fs := by
  intro objs
  induction objs with
  | nil => intro fs; exact FSLe_refl fs
  | cons obj rest ih =>
    intro fs
    cases hr : resolveUrl obj with
    | none =>
      rw [pfl_cons_nourl cfg net title obj rest fs hr]
      exact ih fs
    | some url =>
      cases he : fsExists (targetPath cfg title obj) fs with
      | true =>
        rw [pfl_cons_exists cfg net title obj rest fs url hr he]
        exact ih fs
      | false =>
        rw [pfl_cons_dl cfg net title obj rest fs url hr he]
        by_cases hok : (downloadFile cfg url (objFilename title obj) cfg.saveDirectory
          (fun _ => net url) fs).ok = true
        · rw [if_pos hok]
          exact FSLe_trans (downloadFile_mono cfg url (objFilename title obj)
            cfg.saveDirectory (fun _ => net url) fs) (ih _)
        · rw [if_neg hok]
          exact FSLe_trans (downloadFile_mono cfg url (objFilename title obj)
            cfg.saveDirectory (fun _ => net url) fs) (ih _)

theorem processFileList_stab (cfg : Config) (net : String → NetResp) (title : String) :
    ∀ (objs : List FileObj) (fs fs2 : FS),
      FSLe (processFileList cfg net title objs fs).fs fs2 →
      (processFileList cfg net title objs fs2).count = 0 ∧
      (processFileList cfg net title objs fs2).fs = fs2 := by
  intro objs
  induction objs with
  | nil => intro fs fs2 _; exact ⟨rfl, rfl⟩
  | cons obj rest ih =>
    intro fs fs2 hle
    cases hr : resolveUrl obj with
    | none =>
      rw [pfl_cons_nourl cfg net title obj rest fs hr] at hle
      rw [pfl_cons_nourl cfg net title obj rest fs2 hr]
      exact ih fs fs2 hle
    | some url =>
      cases he : fsExists (targetPath cfg title obj) fs with
      | true =>
        rw [pfl_cons_exists cfg net title obj rest fs url hr he] at hle
        have hp2 : fsExists (targetPath cfg title obj) fs2 = true :=
          hle _ (processFileList_mono cfg net title rest fs _ he)
        rw [pfl_cons_exists cfg net title obj rest fs2 url hr hp2]
        exact ih fs fs2 hle
      | false =>
        rw [pfl_cons_dl cfg net title obj rest fs url hr he] at hle
        by_cases hok : (downloadFile cfg url (objFilename title obj) cfg.saveDirectory
          (fun _ => net url) fs).ok = true
        · rw [if_pos hok] at hle
          obtain ⟨v, hv⟩ := downloadFile_ok_write cfg url (objFilename title obj)
            cfg.saveDirectory (fun _ => net url) fs he hok
          have hp2 : fsExists (targetPath cfg title obj) fs2 = true := by
            refine hle _ (processFileList_mono cfg net title rest _ _ ?_)
            rw [hv]
            exact fsExists_write_self _ _ _
          rw [pfl_cons_exists cfg net title obj rest fs2 url hr hp2]
          exact ih _ fs2 hle
        · rw [if_neg hok] at hle
          have hokf : (downloadFile cfg url (objFilename title obj) cfg.saveDirectory
            (fun _ => net url) fs).ok = false := by
            simpa using hok
          rw [downloadFile_fail_fs cfg url (objFilename title obj) cfg.saveDirectory
            (fun _ => net url) fs hokf] at hle
          cases hp2 : fsExists (targetPath cfg title obj) fs2 with
          | true =>
            rw [pfl_cons_exists cfg net title obj rest fs2 url hr hp2]
            exact ih fs fs2 hle
          | false =>
            rw [pfl_cons_dl cfg net title obj rest fs2 url hr hp2]
            have hok2 : ¬((downloadFile cfg url (objFilename title obj) cfg.saveDirectory
              (fun _ => net url) fs2).ok = true) := by
              rw [← downloadFile_ok_indep cfg url (objFilename title obj)
                cfg.saveDirectory (fun _ => net url) fs fs2 he hp2]
              exact hok
            rw [if_neg hok2]
            rw [downloadFile_fail_fs cfg url (objFilename title obj) cfg.saveDirectory
              (fun _ => net url) fs2 (by simpa using hok2)]
            exact ih fs fs2 hle

/-! ### File-info loop state lemmas -/

theorem processFileInfos_mono (cfg : Config) (net : String → NetResp) (title : String) :
    ∀ (fis : List FileInfo) (fs : FS),
      FSLe fs (processFileInfos cfg net title fis fs).fs := by
  intro fis
  induction fis with
  | nil => intro fs; exact FSLe_refl fs
  | cons fi rest ih =>
    intro fs
    exact FSLe_trans (processFileList_mono cfg net title (fi.files.getD []) fs) (ih _)

theorem processFileInfos_stab (cfg : Config) (net : String → NetResp) (title : String) :
    ∀ (fis : List FileInfo) (fs fs2 : FS),
      FSLe (processFileInfos cfg net title fis fs).fs fs2 →
      (processFileInfos cfg net title fis fs2).count = 0 ∧
      (processFileInfos cfg net title fis fs2).fs = fs2 := by
  intro fis
  induction fis with
  | nil => intro fs fs2 _; exact ⟨rfl, rfl⟩
  | cons fi rest ih =>
    intro fs fs2 hle
    simp only [processFileInfos] at hle ⊢
    have h1 := processFileList_stab cfg net title (fi.files.getD []) fs fs2
      (FSLe_trans (processFileInfos_mono cfg net title rest _) hle)
    have h2 := ih (processFileList cfg net title (fi.files.getD []) fs).fs fs2 hle
    rw [h1.2]
    exact ⟨by rw [h1.1, h2.1], h2.2⟩

/-! ### `process_submission` state lemmas -/

theorem processSubmission_mono (cfg : Config) (files : String → FilesResp)
    (net : String → NetResp) (sid : Option String) (s : Submission) (fs : FS) :
    FSLe fs (processSubmission cfg files net sid s fs).fs := by
  cases hid : s.submission_id with
  | none => simp only [processSubmission, hid]; exact FSLe_refl fs
  | some subId =>
    simp only [processSubmission, hid]
    rcases hg : getSubmissionFiles sid subId (files subId) with ⟨res, evs⟩
    cases res with
    | error e => exact FSLe_refl fs
    | ok fi => exact processFileInfos_mono cfg net (s.title.getD "untitled") fi fs

theorem processSubmission_stab (cfg : Config) (files : String → FilesResp)
    (net : String → NetResp) (sid : Option String) (s : Submission) (fs fs2 : FS)
    (hle : FSLe (processSubmission cfg files net sid s fs).fs fs2) :
    (processSubmission cfg files net sid s fs2).fs = fs2 ∧
    (∀ e, (processSubmission cfg files net sid s fs).res = .error e →
      (processSubmission cfg files net sid s fs2).res = .error e) ∧
    (∀ n b, (processSubmission cfg files net sid s fs).res = .ok (n, b) →
      ∃ b2, (processSubmission cfg files net sid s fs2).res = .ok (0, b2)) := by
  cases hid : s.submission_id with
  | none =>
    refine ⟨?_, ?_, ?_⟩
    · simp [processSubmission, hid]
    · intro e he
      simp only [processSubmission, hid] at he ⊢
      exact he
    · intro n b hnb
      simp [processSubmission, hid] at hnb
  | some subId =>
    have hle' : FSLe (processSubmission cfg files net sid s fs).fs fs2 := hle
    simp only [processSubmission, hid] at hle' ⊢
    rcases hg : getSubmissionFiles sid subId (files subId) with ⟨res, evs⟩
    rw [hg] at hle'
    cases res with
    | error e =>
      exact ⟨rfl, fun e' he' => he', fun n b hnb => by simp at hnb⟩
    | ok fi =>
      have hst := processFileInfos_stab cfg net (s.title.getD "untitled") fi fs fs2 hle'
      refine ⟨hst.2, fun e he => by simp at he, fun n b hnb => ?_⟩
      exact ⟨(processFileInfos cfg net (s.title.getD "untitled") fi fs2).allExist,
        by rw [← hst.1]⟩

/-! ### Submission loop state lemmas -/

theorem processSubmissions_mono (cfg : Config) (files : String → FilesResp)
    (net : String → NetResp) (sid : Option String) :
    ∀ (subs : List Submission) (fs : FS),
      FSLe fs (processSubmissions cfg files net sid subs fs).fs := by
  intro subs
  induction subs with
  | nil => intro fs; exact FSLe_refl fs
  | cons s rest ih =>
    intro fs
    simp only [processSubmissions]
    cases hres : (processSubmission cfg files net sid s fs).res with
    | error e =>
      exact processSubmission_mono cfg files net sid s fs
    | ok p =>
      exact FSLe_trans (processSubmission_mono cfg files net sid s fs) (ih _)

theorem processSubmissions_stab (cfg : Config) (files : String → FilesResp)
    (net : String → NetResp) (sid : Option String) :
    ∀ (subs : List Submission) (fs fs2 : FS),
      FSLe (processSubmissions cfg files net sid subs fs).fs fs2 →
      (processSubmissions cfg files net sid subs fs2).count = 0 ∧
      (processSubmissions cfg files net sid subs fs2).err =
        (processSubmissions cfg files net sid subs fs).err ∧
      (processSubmissions cfg files net sid subs fs2).fs = fs2 := by
  intro subs
  induction subs with
  | nil => intro fs fs2 _; exact ⟨rfl, rfl, rfl⟩
  | cons s rest ih =>
    intro fs fs2 hle
    have hle' : FSLe (processSubmissions cfg files net sid (s :: rest) fs).fs fs2 := hle
    simp only [processSubmissions] at hle' ⊢
    cases hres : (processSubmission cfg files net sid s fs).res with
    | error e =>
      rw [hres] at hle'
      have hst := processSubmission_stab cfg files net sid s fs fs2 hle'
      have herr2 := hst.2.1 e hres
      rw [herr2]
      exact ⟨rfl, rfl, hst.1⟩
    | ok p =>
      obtain ⟨n, b⟩ := p
      rw [hres] at hle'
      have hle1 : FSLe (processSubmission cfg files net sid s fs).fs fs2 :=
        FSLe_trans (processSubmissions_mono cfg files net sid rest _) hle'
      have hst := processSubmission_stab cfg files net sid s fs fs2 hle1
      obtain ⟨b2, hok2⟩ := hst.2.2 n b hres
      rw [hok2]
      have h2 := ih (processSubmission cfg files net sid s fs).fs fs2 hle'
      rw [hst.1]
      exact ⟨by rw [h2.1], by rw [h2.2.1], h2.2.2⟩

/-! ### Page loop branch equations -/

theorem pageLoop_out (cfg : Config) (remote : Remote) (sid : Option String)
    (uid : String) (total : Int) (fuel page : Nat) (subs : List Submission)
    (fs : FS) (hp : ¬((page : Int) ≤ total)) :
    pageLoop cfg remote sid uid total (fuel + 1) page subs fs = ⟨0, none, fs, []⟩ := by
  simp [pageLoop, hp]

theorem pageLoop_fetch_err (cfg : Config) (remote : Remote) (sid : Option String)
    (uid : String) (total : Int) (fuel page : Nat) (subs : List Submission)
    (fs : FS) (e : String) (fevs : List Event) (hp : (page : Int) ≤ total)
    (hf : (if page > 1 then getUserSubmissions sid uid page (remote.page page)
      else (.ok (subs, 0), [])) = (.error e, fevs)) :
    pageLoop cfg remote sid uid total (fuel + 1) page subs fs =
      ⟨0, some e, fs, fevs⟩ := by
  simp [pageLoop, hp, hf]

theorem pageLoop_fetch_empty (cfg : Config) (remote : Remote) (sid : Option String)
    (uid : String) (total : Int) (fuel page : Nat) (subs subsCur : List Submission)
    (fs : FS) (tp : Int) (fevs : List Event) (hp : (page : Int) ≤ total)
    (hf : (if page > 1 then getUserSubmissions sid uid page (remote.page page)
      else (.ok (subs, 0), [])) = (.ok (subsCur, tp), fevs))
    (hemp : (decide (page > 1) && subsCur.isEmpty) = true) :
    pageLoop cfg remote sid uid total (fuel + 1) page subs fs =
      ⟨0, none, fs, fevs⟩ := by
  simp [pageLoop, hp, hf, hemp]

theorem pageLoop_body_err (cfg : Config) (remote : Remote) (sid : Option String)
    (uid : String) (total : Int) (fuel page : Nat) (subs subsCur : List Submission)
    (fs : FS) (tp : Int) (fevs : List Event) (e : String) (hp : (page : Int) ≤ total)
    (hf : (if page > 1 then getUserSubmissions sid uid page (remote.page page)
      else (.ok (subs, 0), [])) = (.ok (subsCur, tp), fevs))
    (hemp : (decide (page > 1) && subsCur.isEmpty) = false)
    (herr : (processSubmissions cfg remote.files remote.download sid subsCur fs).err =
      some e) :
    pageLoop cfg remote sid uid total (fuel + 1) page subs fs =
      ⟨(processSubmissions cfg remote.files remote.download sid subsCur fs).count,
        some e,
        (processSubmissions cfg remote.files remote.download sid subsCur fs).fs,
        fevs ++ (processSubmissions cfg remote.files remote.download sid subsCur fs).evs⟩ := by
  simp [pageLoop, hp, hf, hemp, herr]

theorem pageLoop_body_last (cfg : Config) (remote : Remote) (sid : Option String)
    (uid : String) (total : Int) (fuel page : Nat) (subs subsCur : List Submission)
    (fs : FS) (tp : Int) (fevs : List Event) (hp : (page : Int) ≤ total)
    (hf : (if page > 1 then getUserSubmissions sid uid page (remote.page page)
      else (.ok (subs, 0), [])) = (.ok (subsCur, tp), fevs))
    (hemp : (decide (page > 1) && subsCur.isEmpty) = false)
    (herr : (processSubmissions cfg remote.files remote.download sid subsCur fs).err =
      none)
    (hlast : (page : Int) = total) :
    pageLoop cfg remote sid uid total (fuel + 1) page subs fs =
      ⟨(processSubmissions cfg remote.files remote.download sid subsCur fs).count,
        none,
        (processSubmissions cfg remote.files remote.download sid subsCur fs).fs,
        fevs ++ (processSubmissions cfg remote.files remote.download sid subsCur fs).evs⟩ := by
  simp [pageLoop, hp, hf, hemp, herr, hlast]

theorem pageLoop_body_next (cfg : Config) (remote : Remote) (sid : Option String)
    (uid : String) (total : Int) (fuel page : Nat) (subs subsCur : List Submission)
    (fs : FS) (tp : Int) (fevs : List Event) (hp : (page : Int) ≤ total)
    (hf : (if page > 1 then getUserSubmissions sid uid page (remote.page page)
      else (.ok (subs, 0), [])) = (.ok (subsCur, tp), fevs))
    (hemp : (decide (page > 1) && subsCur.isEmpty) = false)
    (herr : (processSubmissions cfg remote.files remote.download sid subsCur fs).err =
      none)
    (hlast : ¬((page : Int) = total)) :
    pageLoop cfg remote sid uid total (fuel + 1) page subs fs =
      ⟨(processSubmissions cfg remote.files remote.download sid subsCur fs).count +
          (pageLoop cfg remote sid uid total fuel (page + 1) subsCur
            (processSubmissions cfg remote.files remote.download sid subsCur fs).fs).count,
        (pageLoop cfg remote sid uid total fuel (page + 1) subsCur
          (processSubmissions cfg remote.files remote.download sid subsCur fs).fs).err,
        (pageLoop cfg remote sid uid total fuel (page + 1) subsCur
          (processSubmissions cfg remote.files remote.download sid subsCur fs).fs).fs,
        fevs ++ (processSubmissions cfg remote.files remote.download sid subsCur fs).evs ++
          [.sleep cfg.betweenPages] ++
          (pageLoop cfg remote sid uid total fuel (page + 1) subsCur
            (processSubmissions cfg remote.files remote.download sid subsCur fs).fs).evs⟩ := by
  simp [pageLoop, hp, hf, hemp, herr, hlast]

/-! ### Page loop state lemmas -/

theorem pageLoop_mono (cfg : Config) (remote : Remote) (sid : Option String)
    (uid : String) (total : Int) :
    ∀ (fuel page : Nat) (subs : List Submission) (fs : FS),
      FSLe fs (pageLoop cfg remote sid uid total fuel page subs fs).fs := by
  intro fuel
  induction fuel with
  | zero => intro page subs fs; exact FSLe_refl fs
  | succ fuel ih =>
    intro page subs fs
    by_cases hp : (page : Int) ≤ total
    · rcases hf : (if page > 1 then getUserSubmissions sid uid page (remote.page page)
        else (.ok (subs, 0), [])) with ⟨fres, fevs⟩
      cases fres with
      | error e =>
        rw [pageLoop_fetch_err cfg remote sid uid total fuel page subs fs e fevs hp hf]
        exact FSLe_refl fs
      | ok pr =>
        obtain ⟨subsCur, tp⟩ := pr
        cases hemp : (decide (page > 1) && subsCur.isEmpty) with
        | true =>
          rw [pageLoop_fetch_empty cfg remote sid uid total fuel page subs subsCur fs
            tp fevs hp hf hemp]
          exact FSLe_refl fs
        | false =>
          cases herr : (processSubmissions cfg remote.files remote.download sid
            subsCur fs).err with
          | some e =>
            rw [pageLoop_body_err cfg remote sid uid total fuel page subs subsCur fs
              tp fevs e hp hf hemp herr]
            exact processSubmissions_mono cfg remote.files remote.download sid subsCur fs
          | none =>
            by_cases hlast : (page : Int) = total
            · rw [pageLoop_body_last cfg remote sid uid total fuel page subs subsCur fs
                tp fevs hp hf hemp herr hlast]
              exact processSubmissions_mono cfg remote.files remote.download sid subsCur fs
            · rw [pageLoop_body_next cfg remote sid uid total fuel page subs subsCur fs
                tp fevs hp hf hemp herr hlast]
              exact FSLe_trans
                (processSubmissions_mono cfg remote.files remote.download sid subsCur fs)
                (ih (page + 1) subsCur _)
    · rw [pageLoop_out cfg remote sid uid total fuel page subs fs hp]
      exact FSLe_refl fs

theorem pageLoop_stab (cfg : Config) (remote : Remote) (sid : Option String)
    (uid : String) (total : Int) :
    ∀ (fuel page : Nat) (subs : List Submission) (fs fs2 : FS),
      FSLe (pageLoop cfg remote sid uid total fuel page subs fs).fs fs2 →
      (pageLoop cfg remote sid uid total fuel page subs fs2).count = 0 ∧
      (pageLoop cfg remote sid uid total fuel page subs fs2).err =
        (pageLoop cfg remote sid uid total fuel page subs fs).err ∧
      (pageLoop cfg remote sid uid total fuel page subs fs2).fs = fs2 := by
  intro fuel
  induction fuel with
  | zero => intro page subs fs fs2 _; exact ⟨rfl, rfl, rfl⟩
  | succ fuel ih =>
    intro page subs fs fs2 hle
    by_cases hp : (page : Int) ≤ total
    · rcases hf : (if page > 1 then getUserSubmissions sid uid page (remote.page page)
        else (.ok (subs, 0), [])) with ⟨fres, fevs⟩
      cases fres with
      | error e =>
        rw [pageLoop_fetch_err cfg remote sid uid total fuel page subs fs e fevs hp hf]
          at hle ⊢
        rw [pageLoop_fetch_err cfg remote sid uid total fuel page subs fs2 e fevs hp hf]
        exact ⟨rfl, rfl, rfl⟩
      | ok pr =>
        obtain ⟨subsCur, tp⟩ := pr
        cases hemp : (decide (page > 1) && subsCur.isEmpty) with
        | true =>
          rw [pageLoop_fetch_empty cfg remote sid uid total fuel page subs subsCur fs
            tp fevs hp hf hemp] at hle ⊢
          rw [pageLoop_fetch_empty cfg remote sid uid total fuel page subs subsCur fs2
            tp fevs hp hf hemp]
          exact ⟨rfl, rfl, rfl⟩
        | false =>
          cases herr : (processSubmissions cfg remote.files remote.download sid
            subsCur fs).err with
          | some e =>
            rw [pageLoop_body_err cfg remote sid uid total fuel page subs subsCur fs
              tp fevs e hp hf hemp herr] at hle ⊢
            have hst := processSubmissions_stab cfg remote.files remote.download sid
              subsCur fs fs2 hle
            have herr2 : (processSubmissions cfg remote.files remote.download sid
                subsCur fs2).err = some e := by
              rw [hst.2.1, herr]
            rw [pageLoop_body_err cfg remote sid uid total fuel page subs subsCur fs2
              tp fevs e hp hf hemp herr2]
            exact ⟨hst.1, rfl, hst.2.2⟩
          | none =>
            by_cases hlast : (page : Int) = total
            · rw [pageLoop_body_last cfg remote sid uid total fuel page subs subsCur fs
                tp fevs hp hf hemp herr hlast] at hle ⊢
              have hst := processSubmissions_stab cfg remote.files remote.download sid
                subsCur fs fs2 hle
              have herr2 : (processSubmissions cfg remote.files remote.download sid
                  subsCur fs2).err = none := by
                rw [hst.2.1, herr]
              rw [pageLoop_body_last cfg remote sid uid total fuel page subs subsCur fs2
                tp fevs hp hf hemp herr2 hlast]
              exact ⟨hst.1, rfl, hst.2.2⟩
            · rw [pageLoop_body_next cfg remote sid uid total fuel page subs subsCur fs
                tp fevs hp hf hemp herr hlast] at hle ⊢
              have hle1 : FSLe (processSubmissions cfg remote.files remote.download sid
                  subsCur fs).fs fs2 :=
                FSLe_trans (pageLoop_mono cfg remote sid uid total fuel (page + 1)
                  subsCur _) hle
              have hst := processSubmissions_stab cfg remote.files remote.download sid
                subsCur fs fs2 hle1
              have herr2 : (processSubmissions cfg remote.files remote.download sid
                  subsCur fs2).err = none := by
                rw [hst.2.1, herr]
              rw [pageLoop_body_next cfg remote sid uid total fuel page subs subsCur fs2
                tp fevs hp hf hemp herr2 hlast]
              have h2 := ih (page + 1) subsCur
                (processSubmissions cfg remote.files remote.download sid subsCur fs).fs
                fs2 hle
              rw [hst.2.2]
              exact ⟨by rw [hst.1, h2.1], by rw [h2.2.1], h2.2.2⟩
    · rw [pageLoop_out cfg remote sid uid total fuel page subs fs hp] at hle ⊢
      rw [pageLoop_out cfg remote sid uid total fuel page subs fs2 hp]
      exact ⟨rfl, rfl, rfl⟩

/-! ### Orchestrator branch equations -/

theorem runMain_login_fail (cfg : Config) (remote : Remote) (fs : FS)
    (hl : (login (fun _ => remote.login)).1 = none) :
    runMain cfg remote fs = ⟨0, none, fs, (login (fun _ => remote.login)).2⟩ := by
  simp [runMain, hl]

theorem runMain_user_err (cfg : Config) (remote : Remote) (fs : FS) (sid : String)
    (e : String) (uevs : List Event)
    (hl : (login (fun _ => remote.login)).1 = some sid)
    (hu : getUserId (some sid) cfg.artistUsername remote.userSearch = (.error e, uevs)) :
    runMain cfg remote fs =
      ⟨0, some e, fs, (login (fun _ => remote.login)).2 ++ uevs⟩ := by
  simp [runMain, hl, hu]

theorem runMain_user_none (cfg : Config) (remote : Remote) (fs : FS) (sid : String)
    (uidOpt : Option String) (uevs : List Event)
    (hl : (login (fun _ => remote.login)).1 = some sid)
    (hu : getUserId (some sid) cfg.artistUsername remote.userSearch = (.ok uidOpt, uevs))
    (ht : pyTruthy uidOpt = false) :
    runMain cfg remote fs =
      ⟨0, none, fs, (login (fun _ => remote.login)).2 ++ uevs⟩ := by
  simp [runMain, hl, hu, ht]

theorem runMain_first_err (cfg : Config) (remote : Remote) (fs : FS) (sid : String)
    (uidOpt : Option String) (uevs : List Event) (e : String) (sevs : List Event)
    (hl : (login (fun _ => remote.login)).1 = some sid)
    (hu : getUserId (some sid) cfg.artistUsername remote.userSearch = (.ok uidOpt, uevs))
    (ht : pyTruthy uidOpt = true)
    (hs : getUserSubmissions (some sid) (uidOpt.getD "") 1 (remote.page 1) =
      (.error e, sevs)) :
    runMain cfg remote fs =
      ⟨0, some e, fs, (login (fun _ => remote.login)).2 ++ uevs ++ sevs⟩ := by
  simp [runMain, hl, hu, ht, hs]

theorem runMain_first_empty (cfg : Config) (remote : Remote) (fs : FS) (sid : String)
    (uidOpt : Option String) (uevs : List Event) (subs : List Submission)
    (total : Int) (sevs : List Event)
    (hl : (login (fun _ => remote.login)).1 = some sid)
    (hu : getUserId (some sid) cfg.artistUsername remote.userSearch = (.ok uidOpt, uevs))
    (ht : pyTruthy uidOpt = true)
    (hs : getUserSubmissions (some sid) (uidOpt.getD "") 1 (remote.page 1) =
      (.ok (subs, total), sevs))
    (hemp : subs.isEmpty = true) :
    runMain cfg remote fs =
      ⟨0, none, fs, (login (fun _ => remote.login)).2 ++ uevs ++ sevs⟩ := by
  simp [runMain, hl, hu, ht, hs, hemp]

theorem runMain_run (cfg : Config) (remote : Remote) (fs : FS) (sid : String)
    (uidOpt : Option String) (uevs : List Event) (subs : List Submission)
    (total : Int) (sevs : List Event)
    (hl : (login (fun _ => remote.login)).1 = some sid)
    (hu : getUserId (some sid) cfg.artistUsername remote.userSearch = (.ok uidOpt, uevs))
    (ht : pyTruthy uidOpt = true)
    (hs : getUserSubmissions (some sid) (uidOpt.getD "") 1 (remote.page 1) =
      (.ok (subs, total), sevs))
    (hemp : subs.isEmpty = false) :
    runMain cfg remote fs =
      ⟨(pageLoop cfg remote (some sid) (uidOpt.getD "") total (total + 1).toNat
          1 subs fs).count,
        (pageLoop cfg remote (some sid) (uidOpt.getD "") total (total + 1).toNat
          1 subs fs).err,
        (pageLoop cfg remote (some sid) (uidOpt.getD "") total (total + 1).toNat
          1 subs fs).fs,
        (login (fun _ => remote.login)).2 ++ uevs ++ sevs ++
          (pageLoop cfg remote (some sid) (uidOpt.getD "") total (total + 1).toNat
            1 subs fs).evs⟩ := by
  simp [runMain, hl, hu, ht, hs, hemp]

/-! ### Claim C2: pipeline idempotence -/

/-- C2: running the full pipeline twice against the same (unchanged) remote
dataset performs zero downloads on the second run, and the second run leaves
the filesystem — hence the set of files and the total byte count on disk —
exactly as the first run left it. -/
theorem pipeline_idempotent (cfg : Config) (remote : Remote) (fs : FS) :
    (runMain cfg remote (runMain cfg remote fs).fs).count = 0 ∧
    (runMain cfg remote (runMain cfg remote fs).fs).fs = (runMain cfg remote fs).fs ∧
    fsBytes (runMain cfg remote (runMain cfg remote fs).fs).fs =
      fsBytes (runMain cfg remote fs).fs := by
  suffices h : (runMain cfg remote (runMain cfg remote fs).fs).count = 0 ∧
      (runMain cfg remote (runMain cfg remote fs).fs).fs = (runMain cfg remote fs).fs by
    exact ⟨h.1, h.2, by rw [h.2]⟩
  rcases hl : (login (fun _ => remote.login)).1 with _ | sid
  · rw [runMain_login_fail cfg remote fs hl]
    rw [runMain_login_fail cfg remote fs hl]
    exact ⟨rfl, rfl⟩
  · rcases hu : getUserId (some sid) cfg.artistUsername remote.userSearch with ⟨ur, uevs⟩
    cases ur with
    | error e =>
      rw [runMain_user_err cfg remote fs sid e uevs hl hu]
      rw [runMain_user_err cfg remote fs sid e uevs hl hu]
      exact ⟨rfl, rfl⟩
    | ok uidOpt =>
      cases ht : pyTruthy uidOpt with
      | false =>
        rw [runMain_user_none cfg remote fs sid uidOpt uevs hl hu ht]
        rw [runMain_user_none cfg remote fs sid uidOpt uevs hl hu ht]
        exact ⟨rfl, rfl⟩
      | true =>
        rcases hs : getUserSubmissions (some sid) (uidOpt.getD "") 1 (remote.page 1)
          with ⟨sres, sevs⟩
        cases sres with
        | error e =>
          rw [runMain_first_err cfg remote fs sid uidOpt uevs e sevs hl hu ht hs]
          rw [runMain_first_err cfg remote fs sid uidOpt uevs e sevs hl hu ht hs]
          exact ⟨rfl, rfl⟩
        | ok pr =>
          obtain ⟨subs, total⟩ := pr
          cases hemp : subs.isEmpty with
          | true =>
            rw [runMain_first_empty cfg remote fs sid uidOpt uevs subs total sevs
              hl hu ht hs hemp]
            rw [runMain_first_empty cfg remote fs sid uidOpt uevs subs total sevs
              hl hu ht hs hemp]
            exact ⟨rfl, rfl⟩
          | false =>
            rw [runMain_run cfg remote fs sid uidOpt uevs subs total sevs
              hl hu ht hs hemp]
            rw [runMain_run cfg remote
              (pageLoop cfg remote (some sid) (uidOpt.getD "") total (total + 1).toNat
                1 subs fs).fs sid uidOpt uevs subs total sevs hl hu ht hs hemp]
            have hst := pageLoop_stab cfg remote (some sid) (uidOpt.getD "") total
              ((total + 1).toNat) 1 subs fs
              (pageLoop cfg remote (some sid) (uidOpt.getD "") total
                ((total + 1).toNat) 1 subs fs).fs
              (FSLe_refl _)
            exact ⟨hst.1, hst.2.2⟩

/-! ### Error-freeness of submission processing with a live session -/

theorem getSubmissionFiles_ok (sid : Option String) (subId : String)
    (resp : FilesResp) (hsid : pyTruthy sid = true) :
    ∃ fi evs, getSubmissionFiles sid subId resp = (.ok fi, evs) := by
  cases resp with
  | ok subs =>
    exact ⟨subs.getD [], [.filesFetch subId], by simp [getSubmissionFiles, hsid]⟩
  | status c =>
    exact ⟨[], [.filesFetch subId], by simp [getSubmissionFiles, hsid]⟩
  | transport =>
    exact ⟨[], [.filesFetch subId], by simp [getSubmissionFiles, hsid]⟩

theorem getSubmissionFiles_evs (sid : Option String) (subId : String)
    (resp : FilesResp) :
    ∀ e ∈ (getSubmissionFiles sid subId resp).2, e = Event.filesFetch subId := by
  intro e he
  by_cases hts : pyTruthy sid = false
  · simp [getSubmissionFiles, hts] at he
  · cases resp <;> simp [getSubmissionFiles, hts] at he <;> exact he

theorem processSubmission_no_err (cfg : Config) (files : String → FilesResp)
    (net : String → NetResp) (sid : Option String) (s : Submission) (fs : FS)
    (hsid : pyTruthy sid = true) (hid : s.submission_id.isSome = true) :
    ∃ p, (processSubmission cfg files net sid s fs).res = Except.ok p := by
  rcases hid2 : s.submission_id with _ | subId
  · rw [hid2] at hid
    simp at hid
  · simp only [processSubmission, hid2]
    obtain ⟨fi, evs, hg⟩ := getSubmissionFiles_ok sid subId (files subId) hsid
    rw [hg]
    exact ⟨_, rfl⟩

theorem processSubmissions_no_err (cfg : Config) (files : String → FilesResp)
    (net : String → NetResp) (sid : Option String) (hsid : pyTruthy sid = true) :
    ∀ (subs : List Submission) (fs : FS),
      (∀ s ∈ subs, s.submission_id.isSome = true) →
      (processSubmissions cfg files net sid subs fs).err = none := by
  intro subs
  induction subs with
  | nil => intro fs _; rfl
  | cons s rest ih =>
    intro fs hall
    simp only [processSubmissions]
    obtain ⟨p, hp⟩ := processSubmission_no_err cfg files net sid s fs hsid
      (hall s (by simp))
    rw [hp]
    obtain ⟨n, b⟩ := p
    exact ih (processSubmission cfg files net sid s fs).fs
      (fun s2 hs2 => hall s2 (by simp [hs2]))

/-! ### Absence of pagination events in submission processing -/

theorem no_page_append {bp : Nat} {l1 l2 : List Event}
    (h1 : ∀ e ∈ l1, isPageEvent bp e = false)
    (h2 : ∀ e ∈ l2, isPageEvent bp e = false) :
    ∀ e ∈ l1 ++ l2, isPageEvent bp e = false := by
  intro e he
  rcases List.mem_append.mp he with h | h
  · exact h1 e h
  · exact h2 e h

theorem downloadLoop_no_page (bp : Nat) (hbp : retryDelay ≠ bp)
    (url filepath : String) (net : Nat → NetResp) (l : List Nat) (fs : FS) :
    ∀ e ∈ (downloadLoop url filepath net l fs).evs, isPageEvent bp e = false := by
  induction l with
  | nil => intro e he; simp [downloadLoop] at he
  | cons a rest ih =>
    intro e he
    cases hna : net a with
    | ok body =>
      simp only [downloadLoop, hna] at he
      rcases List.mem_cons.mp he with he | he
      · subst he; rfl
      · rcases List.mem_cons.mp he with he | he
        · subst he; rfl
        · simp at he
    | status c =>
      simp only [downloadLoop, hna] at he
      rcases List.mem_cons.mp he with he | he
      · subst he; rfl
      · exact ih e he
    | transport =>
      simp only [downloadLoop, hna] at he
      by_cases hlt : a < retryCount - 1
      · rw [if_pos hlt] at he
        rcases List.mem_cons.mp he with he | he
        · subst he; rfl
        · rcases List.mem_cons.mp he with he | he
          · subst he
            simp only [isPageEvent]
            exact beq_eq_false_iff_ne.mpr hbp
          · exact ih e he
      · rw [if_neg hlt] at he
        rcases List.mem_cons.mp he with he | he
        · subst he; rfl
        · exact ih e he

theorem downloadFile_no_page (bp : Nat) (hbp : retryDelay ≠ bp) (cfg : Config)
    (url filename saveDir : String) (net : Nat → NetResp) (fs : FS) :
    ∀ e ∈ (downloadFile cfg url filename saveDir net fs).evs,
      isPageEvent bp e = false := by
  intro e he
  cases hex : fsExists (joinPath (joinPath saveDir cfg.artistUsername) filename) fs with
  | true =>
    rw [downloadFile_exists_eq cfg url filename saveDir net fs hex] at he
    rcases List.mem_cons.mp he with he | he
    · subst he; rfl
    · simp at he
  | false =>
    rw [downloadFile_not_exists_eq cfg url filename saveDir net fs hex] at he
    rcases List.mem_cons.mp he with he | he
    · subst he; rfl
    · exact downloadLoop_no_page bp hbp url _ net (List.range retryCount) fs e he

theorem processFileList_no_page (bp : Nat) (hbp : retryDelay ≠ bp) (cfg : Config)
    (hbf : cfg.betweenFiles ≠ bp) (net : String → NetResp) (title : String) :
    ∀ (objs : List FileObj) (fs : FS),
      ∀ e ∈ (processFileList cfg net title objs fs).evs, isPageEvent bp e = false := by
  intro objs
  induction objs with
  | nil => intro fs e he; simp [processFileList] at he
  | cons obj rest ih =>
    intro fs e he
    cases hr : resolveUrl obj with
    | none =>
      rw [pfl_cons_nourl cfg net title obj rest fs hr] at he
      exact ih fs e he
    | some url =>
      cases hex : fsExists (targetPath cfg title obj) fs with
      | true =>
        rw [pfl_cons_exists cfg net title obj rest fs url hr hex] at he
        exact ih fs e he
      | false =>
        rw [pfl_cons_dl cfg net title obj rest fs url hr hex] at he
        by_cases hok : (downloadFile cfg url (objFilename title obj) cfg.saveDirectory
          (fun _ => net url) fs).ok = true
        · rw [if_pos hok] at he
          refine no_page_append (no_page_append
            (downloadFile_no_page bp hbp cfg url (objFilename title obj)
              cfg.saveDirectory (fun _ => net url) fs) ?_) (ih _) e he
          intro e2 he2
          rcases List.mem_singleton.mp he2 with rfl
          simp only [isPageEvent]
          exact beq_eq_false_iff_ne.mpr hbf
        · rw [if_neg hok] at he
          exact no_page_append
            (downloadFile_no_page bp hbp cfg url (objFilename title obj)
              cfg.saveDirectory (fun _ => net url) fs) (ih _) e he

theorem processFileInfos_no_page (bp : Nat) (hbp : retryDelay ≠ bp) (cfg : Config)
    (hbf : cfg.betweenFiles ≠ bp) (net : String → NetResp) (title : String) :
    ∀ (fis : List FileInfo) (fs : FS),
      ∀ e ∈ (processFileInfos cfg net title fis fs).evs, isPageEvent bp e = false := by
  intro fis
  induction fis with
  | nil => intro fs e he; simp [processFileInfos] at he
  | cons fi rest ih =>
    intro fs e he
    simp only [processFileInfos] at he
    exact no_page_append
      (processFileList_no_page bp hbp cfg hbf net title (fi.files.getD []) fs)
      (ih _) e he

theorem processSubmission_no_page (bp : Nat) (hbp : retryDelay ≠ bp) (cfg : Config)
    (hbf : cfg.betweenFiles ≠ bp) (files : String → FilesResp) (net : String → NetResp)
    (sid : Option String) (s : Submission) (fs : FS) :
    ∀ e ∈ (processSubmission cfg files net sid s fs).evs, isPageEvent bp e = false := by
  intro e he
  cases hid : s.submission_id with
  | none => simp [processSubmission, hid] at he
  | some subId =>
    simp only [processSubmission, hid] at he
    rcases hg : getSubmissionFiles sid subId (files subId) with ⟨res, evs⟩
    rw [hg] at he
    have hevs : ∀ e2 ∈ evs, isPageEvent bp e2 = false := by
      intro e2 he2
      have hall := getSubmissionFiles_evs sid subId (files subId)
      rw [hg] at hall
      rw [hall e2 he2]
      rfl
    cases res with
    | error err => exact hevs e he
    | ok fi =>
      exact no_page_append hevs
        (processFileInfos_no_page bp hbp cfg hbf net (s.title.getD "untitled") fi fs)
        e he

theorem processSubmissions_no_page (bp : Nat) (hbp : retryDelay ≠ bp) (cfg : Config)
    (hbf : cfg.betweenFiles ≠ bp) (files : String → FilesResp) (net : String → NetResp)
    (sid : Option String) :
    ∀ (subs : List Submission) (fs : FS),
      ∀ e ∈ (processSubmissions cfg files net sid subs fs).evs,
        isPageEvent bp e = false := by
  intro subs
  induction subs with
  | nil => intro fs e he; simp [processSubmissions] at he
  | cons s rest ih =>
    intro fs e he
    simp only [processSubmissions] at he
    cases hres : (processSubmission cfg files net sid s fs).res with
    | error err =>
      rw [hres] at he
      exact processSubmission_no_page bp hbp cfg hbf files net sid s fs e he
    | ok p =>
      obtain ⟨n, b⟩ := p
      rw [hres] at he
      exact no_page_append
        (processSubmission_no_page bp hbp cfg hbf files net sid s fs) (ih _) e he

theorem processSubmissions_filter_page (bp : Nat) (hbp : retryDelay ≠ bp)
    (cfg : Config) (hbf : cfg.betweenFiles ≠ bp) (files : String → FilesResp)
    (net : String → NetResp) (sid : Option String) (subs : List Submission) (fs : FS) :
    (processSubmissions cfg files net sid subs fs).evs.filter (isPageEvent bp) = [] := by
  rw [List.filter_eq_nil_iff]
  intro e he
  rw [processSubmissions_no_page bp hbp cfg hbf files net sid subs fs e he]
  simp

/-! ### Claim C4: pagination termination -/

/-- C4: when the first page fetch reports `total_pages = 3` and pages 1–3 are
non-empty (with well-formed submissions), the orchestrator performs exactly
three page fetches (pages 1, 2, 3 — never page 4), and the `between_pages`
sleep occurs exactly after pages 1 and 2, not after the last page; the page
counts reported by the later fetches are ignored (they are arbitrary here). -/
theorem pagination_three_pages (cfg : Config) (remote : Remote) (fs : FS)
    (sid uid : String) (us : List UserRec) (subs1 subs2 subs3 : List Submission)
    (pc2 pc3 : Option Int)
    (hlogin : remote.login = .ok (some sid))
    (hsid : sid.isEmpty = false)
    (huser : remote.userSearch = .ok (some (⟨uid⟩ :: us)))
    (huid : uid.isEmpty = false)
    (hp1 : remote.page 1 = .ok (some 3) (some subs1))
    (hp2 : remote.page 2 = .ok pc2 (some subs2))
    (hp3 : remote.page 3 = .ok pc3 (some subs3))
    (hs1 : subs1 ≠ []) (hs2 : subs2 ≠ []) (hs3 : subs3 ≠ [])
    (hids1 : ∀ s ∈ subs1, s.submission_id.isSome = true)
    (hids2 : ∀ s ∈ subs2, s.submission_id.isSome = true)
    (hids3 : ∀ s ∈ subs3, s.submission_id.isSome = true)
    (hbf : cfg.betweenFiles ≠ cfg.betweenPages)
    (hrd : retryDelay ≠ cfg.betweenPages) :
    (runMain cfg remote fs).evs.filter (isPageEvent cfg.betweenPages) =
      [.pageFetch uid 1, .sleep cfg.betweenPages, .pageFetch uid 2,
        .sleep cfg.betweenPages, .pageFetch uid 3] := by
  have hl : (login (fun _ => remote.login)).1 = some sid := by
    rw [hlogin]
    rfl
  have hl2 : (login (fun _ => remote.login)).2 = [Event.loginPost] := by
    rw [hlogin]
    rfl
  have hts : pyTruthy (some sid) = true := by simp [pyTruthy, hsid]
  have hu : getUserId (some sid) cfg.artistUsername remote.userSearch =
      (.ok (some uid), [.userSearch cfg.artistUsername]) := by
    rw [huser]
    simp [getUserId, hts]
  have ht : pyTruthy (some uid) = true := by simp [pyTruthy, huid]
  have hs : getUserSubmissions (some sid) ((some uid).getD "") 1 (remote.page 1) =
      (.ok (subs1, 3), [.pageFetch uid 1]) := by
    rw [hp1]
    simp [getUserSubmissions, hts]
  have hemp1 : subs1.isEmpty = false := by
    cases subs1 with
    | nil => exact absurd rfl hs1
    | cons a l => rfl
  have hemp2 : subs2.isEmpty = false := by
    cases subs2 with
    | nil => exact absurd rfl hs2
    | cons a l => rfl
  have hemp3 : subs3.isEmpty = false := by
    cases subs3 with
    | nil => exact absurd rfl hs3
    | cons a l => rfl
  rw [runMain_run cfg remote fs sid (some uid) [.userSearch cfg.artistUsername]
    subs1 3 [.pageFetch uid 1] hl hu ht hs hemp1]
  have hgd : (some uid).getD "" = uid := rfl
  have hfl : ((3 : Int) + 1).toNat = 3 + 1 := rfl
  rw [hgd, hfl, hl2]
  have hf1 : (if 1 > 1 then getUserSubmissions (some sid) uid 1 (remote.page 1)
      else (.ok (subs1, 0), [])) = (.ok (subs1, (0 : Int)), ([] : List Event)) := rfl
  have hemp1b : (decide (1 > 1) && subs1.isEmpty) = false := by simp
  have herr1 := processSubmissions_no_err cfg remote.files remote.download
    (some sid) hts subs1 fs hids1
  rw [pageLoop_body_next cfg remote (some sid) uid 3 3 1 subs1 subs1 fs 0 []
    (by decide) hf1 hemp1b herr1 (by decide)]
  have hf2 : (if 2 > 1 then getUserSubmissions (some sid) uid 2 (remote.page 2)
      else (.ok (subs1, 0), [])) =
      (.ok (subs2, pc2.getD 1), [.pageFetch uid 2]) := by
    rw [if_pos (by decide)]
    rw [hp2]
    simp [getUserSubmissions, hts]
  have hemp2b : (decide (2 > 1) && subs2.isEmpty) = false := by simp [hemp2]
  have herr2 := processSubmissions_no_err cfg remote.files remote.download
    (some sid) hts subs2
    (processSubmissions cfg remote.files remote.download (some sid) subs1 fs).fs hids2
  rw [pageLoop_body_next cfg remote (some sid) uid 3 2 2 subs1 subs2
    (processSubmissions cfg remote.files remote.download (some sid) subs1 fs).fs
    (pc2.getD 1) [.pageFetch uid 2] (by decide) hf2 hemp2b herr2 (by decide)]
  have hf3 : (if 3 > 1 then getUserSubmissions (some sid) uid 3 (remote.page 3)
      else (.ok (subs2, 0), [])) =
      (.ok (subs3, pc3.getD 1), [.pageFetch uid 3]) := by
    rw [if_pos (by decide)]
    rw [hp3]
    simp [getUserSubmissions, hts]
  have hemp3b : (decide (3 > 1) && subs3.isEmpty) = false := by simp [hemp3]
  have herr3 := processSubmissions_no_err cfg remote.files remote.download
    (some sid) hts subs3
    (processSubmissions cfg remote.files remote.download (some sid) subs2
      (processSubmissions cfg remote.files remote.download (some sid) subs1 fs).fs).fs
    hids3
  rw [pageLoop_body_last cfg remote (some sid) uid 3 1 3 subs2 subs3
    (processSubmissions cfg remote.files remote.download (some sid) subs2
      (processSubmissions cfg remote.files remote.download (some sid) subs1 fs).fs).fs
    (pc3.getD 1) [.pageFetch uid 3] (by decide) hf3 hemp3b herr3 (by decide)]
  simp only [List.nil_append, List.append_assoc, List.filter_append,
    List.filter_cons, List.filter_nil]
  rw [processSubmissions_filter_page cfg.betweenPages hrd cfg hbf
    remote.files remote.download (some sid) subs1 fs]
  rw [processSubmissions_filter_page cfg.betweenPages hrd cfg hbf
    remote.files remote.download (some sid) subs2 _]
  rw [processSubmissions_filter_page cfg.betweenPages hrd cfg hbf
    remote.files remote.download (some sid) subs3 _]
  simp [isPageEvent]

/-- Witness for C4 at a concrete configuration and three-page remote. -/
theorem pagination_three_pages_witness :
    (runMain ⟨"b", 1, "t", 1, 2, "u", "p", "save", "artist"⟩
      ⟨.ok (some "S"), .ok (some [⟨"U1"⟩]),
        fun _ => .ok (some 3) (some [⟨some "i", none⟩]),
        fun _ => .ok (some []), fun _ => .transport⟩ []).evs.filter
      (isPageEvent 2) =
      [.pageFetch "U1" 1, .sleep 2, .pageFetch "U1" 2, .sleep 2,
        .pageFetch "U1" 3] :=
  pagination_three_pages ⟨"b", 1, "t", 1, 2, "u", "p", "save", "artist"⟩
    ⟨.ok (some "S"), .ok (some [⟨"U1"⟩]),
      fun _ => .ok (some 3) (some [⟨some "i", none⟩]),
      fun _ => .ok (some []), fun _ => .transport⟩ [] "S" "U1" []
    [⟨some "i", none⟩] [⟨some "i", none⟩] [⟨some "i", none⟩] (some 3) (some 3)
    rfl rfl rfl rfl rfl rfl rfl (by decide) (by decide) (by decide)
    (by decide) (by decide) (by decide) (by decide) (by decide)

end Inkbunny
